import Mathlib

set_option linter.unusedVariables false

/-! Shallow embedding of the response-normalization and fallback-resolution
logic of the MCP orchestration server (`mcp_server.py`).

Python strings are modelled as `List Char`.  The two fixed regular-expression
searches (`re.search` for the issue-key pattern and the browse-URL pattern)
are modelled by explicit leftmost scanners with the greedy semantics those
particular patterns have (for `[A-Z]+-[0-9]+` backtracking can never help,
so the maximal-run reading is exact).  External effects — LLM/bridge calls,
`random.randint`, the wall clock — are supplied as explicit environment
records, and `json.loads` (a Python standard-library collaborator, not code
of this repository) is a function parameter of the response parser. -/

/-! ### Basic character and string helpers -/

def toL (s : String) : List Char := s.data

def isUpperCh (c : Char) : Bool := decide ('A' ≤ c) && decide (c ≤ 'Z')

def isDigitCh (c : Char) : Bool := decide ('0' ≤ c) && decide (c ≤ '9')

/-- ASCII whitespace recognized by Python's `str.strip`. -/
def isSpaceCh (c : Char) : Bool :=
  (c == ' ') || (c == '\t') || (c == '\n') || (c == '\r') || (c == '\x0b') || (c == '\x0c')

/-- Python `str.strip()`. -/
def strip (l : List Char) : List Char :=
  ((l.dropWhile isSpaceCh).reverse.dropWhile isSpaceCh).reverse

/-- Python `str.lower()` restricted to ASCII, which is all the matcher needs. -/
def toLowerCh (c : Char) : Char :=
  if isUpperCh c then Char.ofNat (c.toNat + 32) else c

def lowerL (l : List Char) : List Char := l.map toLowerCh

/-- Python's substring test `needle in haystack`. -/
def containsSub : List Char → List Char → Bool
  | [], n => n.isPrefixOf []
  | c :: t, n => n.isPrefixOf (c :: t) || containsSub t n

/-- Python `str(n)` for the digits of a natural number; fuel-based so that it
reduces in the kernel. -/
def digitChar (n : Nat) : Char :=
  if n = 0 then '0' else if n = 1 then '1' else if n = 2 then '2'
  else if n = 3 then '3' else if n = 4 then '4' else if n = 5 then '5'
  else if n = 6 then '6' else if n = 7 then '7' else if n = 8 then '8'
  else if n = 9 then '9' else '?'

def natToLAux : Nat → Nat → List Char
  | 0, _ => []
  | fuel + 1, n =>
    if n < 10 then [digitChar n]
    else natToLAux fuel (n / 10) ++ [digitChar (n % 10)]

def natToL (n : Nat) : List Char := natToLAux (n + 1) n

/-- Python `text.split(chr(10))`: always at least one piece, empties kept. -/
def splitNl : List Char → List (List Char)
  | [] => [[]]
  | c :: rest =>
    if c = '\n' then [] :: splitNl rest
    else
      match splitNl rest with
      | [] => [[c]]
      | h :: t => (c :: h) :: t

/-- Python `chr(10).join(lines)`. -/
def joinNl (lines : List (List Char)) : List Char := List.intercalate ['\n'] lines

/-! ### The two regular expressions of `extract_jira_issue_info`
(`mcp_server.py` lines 520-536):
`([A-Z]+-\d+)` and `(https://[^/]+\.atlassian\.net/browse/[A-Z]+-\d+)`. -/

def httpsLit : List Char := toL "https://"

def atlassianLit : List Char := toL ".atlassian.net"

def browseLit : List Char := toL "/browse/"

def notSlash (c : Char) : Bool := !(c == '/')

/-- Greedy match of `[A-Z]+-[0-9]+` anchored at the start of `l`.  The greedy
`[A-Z]+` must consume the whole maximal uppercase run (a shorter run is
followed by another uppercase letter, never the required dash), and the final
`[0-9]+` is maximal because nothing follows it in the pattern, so the
maximal-run reading is exactly Python's backtracking semantics. -/
def matchKeyTail (A : List Char) : List Char → Option (List Char)
  | [] => none
  | c :: r2 =>
    if c = '-' then
      if (r2.takeWhile isDigitCh).isEmpty then none
      else some (A ++ '-' :: r2.takeWhile isDigitCh)
    else none

def matchKeyHere (l : List Char) : Option (List Char) :=
  if (l.takeWhile isUpperCh).isEmpty then none
  else matchKeyTail (l.takeWhile isUpperCh) (l.dropWhile isUpperCh)

/-- Greedy match of `https://[^/]+\.atlassian\.net/browse/[A-Z]+-[0-9]+`
anchored at the start of `l`.  The characters matched by
`[^/]+\.atlassian\.net` contain no slash and must be followed by the literal
slash of `/browse/`, so they are exactly the maximal slash-free run after
`https://`, which must end in `.atlassian.net` with at least one character
before it. -/
def matchUrlHere (l : List Char) : Option (List Char) :=
  if httpsLit.isPrefixOf l then
    if decide (14 < ((l.drop 8).takeWhile notSlash).length)
        && atlassianLit.isSuffixOf ((l.drop 8).takeWhile notSlash) then
      if browseLit.isPrefixOf ((l.drop 8).dropWhile notSlash) then
        match matchKeyHere (((l.drop 8).dropWhile notSlash).drop 8) with
        | some k => some (httpsLit ++ (l.drop 8).takeWhile notSlash ++ browseLit ++ k)
        | none => none
      else none
    else none
  else none

/-- `re.search`: try the anchored matcher at every start position, leftmost
first. -/
def reSearch (m : List Char → Option (List Char)) : List Char → Option (List Char)
  | [] => none
  | c :: rest =>
    match m (c :: rest) with
    | some k => some k
    | none => reSearch m rest

def searchKey (s : List Char) : Option (List Char) := reSearch matchKeyHere s

def searchUrl (s : List Char) : Option (List Char) := reSearch matchUrlHere s

def hasKeyB (s : List Char) : Bool := (searchKey s).isSome

def hasUrlB (s : List Char) : Bool := (searchUrl s).isSome

/-- `extract_jira_issue_info` (`mcp_server.py` 520-536): a dict `{key, url}`
is returned only when BOTH regex searches succeed; otherwise `None`. -/
def extract_jira_issue_info (result_str : List Char) : Option (List Char × List Char) :=
  match searchKey result_str, searchUrl result_str with
  | some k, some u => some (k, u)
  | _, _ => none

/-! ### Specification-side characterizations of the regex matches -/

/-- Full match of `[A-Z]+-[0-9]+` (the whole of `k` is the match). -/
def keyPatTail : List Char → Bool
  | [] => false
  | c :: D => decide (c = '-') && !D.isEmpty && D.all isDigitCh

def keyPat (k : List Char) : Bool :=
  !(k.takeWhile isUpperCh).isEmpty && keyPatTail (k.dropWhile isUpperCh)

/-- Full match of `https://[^/]+\.atlassian\.net/browse/[A-Z]+-[0-9]+`. -/
def urlPat (u : List Char) : Bool :=
  httpsLit.isPrefixOf u &&
  decide (14 < ((u.drop 8).takeWhile notSlash).length) &&
  atlassianLit.isSuffixOf ((u.drop 8).takeWhile notSlash) &&
  browseLit.isPrefixOf ((u.drop 8).dropWhile notSlash) &&
  keyPat (((u.drop 8).dropWhile notSlash).drop 8)

/-- `k` matches the key pattern and occurs in `s` starting at index `i`. -/
def keyMatchAt (s k : List Char) (i : Nat) : Prop :=
  keyPat k = true ∧ k <+: s.drop i

/-- `k` is the match `re.search` of the key pattern returns on `s`: it occurs
at some position before which no match of the pattern starts, and it is
greedy (the character following it, if any, is not a digit). -/
def FirstKeyMatch (s k : List Char) : Prop :=
  ∃ i, keyMatchAt s k i ∧ (∀ j k2, j < i → ¬ keyMatchAt s k2 j) ∧
    ∀ c, (s.drop (i + k.length)).head? = some c → isDigitCh c = false

def urlMatchAt (s u : List Char) (i : Nat) : Prop :=
  urlPat u = true ∧ u <+: s.drop i

def FirstUrlMatch (s u : List Char) : Prop :=
  ∃ i, urlMatchAt s u i ∧ (∀ j u2, j < i → ¬ urlMatchAt s u2 j) ∧
    ∀ c, (s.drop (i + u.length)).head? = some c → isDigitCh c = false

/-- The placeholder issue-key format `^{project}-\d{1,4}$` of the spec. -/
def placeholderTail : List Char → Bool
  | [] => false
  | c :: ds =>
    decide (c = '-') && decide (1 ≤ ds.length) && decide (ds.length ≤ 4) && ds.all isDigitCh

def placeholderKeyMatch (project k : List Char) : Bool :=
  project.isPrefixOf k && placeholderTail (k.drop project.length)

/-! ### The `/create-jira-issue` endpoint (`mcp_server.py` 367-518)

External effects are abstracted into `JiraEnv`:
* `clientOk`/`agentOk` model the truthiness tests of lines 374 and 379
  (`create_mcp_client` / `get_agent`, called without `await` in the source);
* `firstRun` is the outcome of `agent.run(create_prompt)` (line 425);
* `fallbackAgentOk` models the `if fallback_agent:` test of line 436;
* `retryRun` is the outcome of `fallback_agent.run(simplified_prompt)`;
* `mockRand` is the draw behind `random.randint(1000, 9999)`, modelled as
  `1000 + mockRand % 9000`;
* `mockRaises`/`mockErrMsg` model an exception inside the mock constructor.

The literal prompt-template strings are route-layer plumbing (out of scope
per the spec), so dispatched prompts are recorded as tagged `AgentCall`s. -/

inductive AgentOutcome
  | ok (text : List Char)
  | raise (msg : List Char)
deriving DecidableEq

inductive PromptKind
  | createPrompt
  | simplifiedPrompt
deriving DecidableEq

structure AgentCall where
  provider : List Char
  model : List Char
  prompt : PromptKind
deriving DecidableEq

structure JiraEnv where
  clientOk : Bool
  agentOk : Bool
  firstRun : AgentOutcome
  fallbackAgentOk : Bool
  retryRun : AgentOutcome
  mockRand : Nat
  mockRaises : Bool
  mockErrMsg : List Char
deriving DecidableEq

structure JiraIssueRequest where
  summary : List Char
  description : List Char
  project : List Char
  issueType : List Char
  priority : List Char
  llm_provider : List Char
  model : List Char
deriving DecidableEq

structure JiraIssueResponse where
  success : Bool
  issue_key : List Char
  issue_url : List Char
  message : List Char
deriving DecidableEq

/-- The validation-failure signature of line 429:
`"validation error" in error_str.lower() and "DynamicModel" in error_str`. -/
def isValidationSignature (m : List Char) : Bool :=
  containsSub (lowerL m) (toL "validation error") && containsSub m (toL "DynamicModel")

/-- `create_mock_jira_issue` (`mcp_server.py` 495-518). -/
def create_mock_jira_issue (env : JiraEnv) (req : JiraIssueRequest) : JiraIssueResponse :=
  if env.mockRaises then
    ⟨false, [], [], toL "Failed to create mock issue: " ++ env.mockErrMsg⟩
  else
    ⟨true, req.project ++ '-' :: natToL (1000 + env.mockRand % 9000),
      toL "https://rowen.atlassian.net/browse/"
        ++ (req.project ++ '-' :: natToL (1000 + env.mockRand % 9000)),
      toL "Mock Jira issue created for development (actual MCP connection needed for real issues)"⟩

/-- The result-processing block of `create_jira_issue` (lines 463-482),
entered with a truthy (nonempty) agent result. -/
def process_extract (req : JiraIssueRequest) (t : List Char) : JiraIssueResponse :=
  match extract_jira_issue_info t with
  | some ku => ⟨true, ku.1, ku.2, toL "Jira issue created successfully"⟩
  | none =>
    ⟨true, req.project ++ toL "-NEW",
      toL "https://rowen.atlassian.net/browse/" ++ (req.project ++ toL "-NEW"),
      toL "Issue creation completed but response parsing unclear"⟩

/-- The inner try/except of `create_jira_issue` (lines 423-460): the main
agent run, the validation-signature test, and the single retry against the
fixed secondary provider (`get_agent("openai", "gpt-4", "jira")`) with the
simplified scalar-only prompt.  Returns the result (or the re-raised
original error) together with the list of prompt dispatches, in order. -/
def run_agent_phase (env : JiraEnv) (req : JiraIssueRequest) :
    Except (List Char) (List Char) × List AgentCall :=
  match env.firstRun with
  | .ok t => (.ok t, [⟨req.llm_provider, req.model, .createPrompt⟩])
  | .raise m =>
    if isValidationSignature m then
      if env.fallbackAgentOk then
        match env.retryRun with
        | .ok t =>
          (.ok t, [⟨req.llm_provider, req.model, .createPrompt⟩,
            ⟨toL "openai", toL "gpt-4", .simplifiedPrompt⟩])
        | .raise _ =>
          (.error m, [⟨req.llm_provider, req.model, .createPrompt⟩,
            ⟨toL "openai", toL "gpt-4", .simplifiedPrompt⟩])
      else (.error m, [⟨req.llm_provider, req.model, .createPrompt⟩])
    else (.error m, [⟨req.llm_provider, req.model, .createPrompt⟩])

/-- `create_jira_issue` (`mcp_server.py` 367-493): the whole endpoint.  The
outer try/except converts every raised error into the mock fallback. -/
def create_jira_issue (env : JiraEnv) (req : JiraIssueRequest) :
    JiraIssueResponse × List AgentCall :=
  if env.clientOk = false then (create_mock_jira_issue env req, [])
  else if env.agentOk = false then (create_mock_jira_issue env req, [])
  else
    match run_agent_phase env req with
    | (.ok t, calls) =>
      (if t.isEmpty then create_mock_jira_issue env req else process_extract req t, calls)
    | (.error _, calls) => (create_mock_jira_issue env req, calls)

/-! ### Provider resolution -/

inductive LLMClient
  | chatOpenAI (model : List Char)
  | chatAnthropic (model : List Char)
  | chatGoogleGenerativeAI (model : List Char)
deriving DecidableEq

inductive GetAgentError
  | unsupportedProvider (provider : List Char)
deriving DecidableEq

/-- The LLM selection of `get_agent` (`mcp_server.py` 166-176): comparison is
against `llm_provider.lower()`; an unknown name raises
`ValueError("Unsupported LLM provider: ...")`. -/
def select_llm (llm_provider model : List Char) : Except GetAgentError LLMClient :=
  if lowerL llm_provider = toL "openai" then .ok (.chatOpenAI model)
  else if lowerL llm_provider = toL "anthropic" then .ok (.chatAnthropic model)
  else if lowerL llm_provider = toL "google" then .ok (.chatGoogleGenerativeAI model)
  else .error (.unsupportedProvider llm_provider)

/-- The LLM selection shared by `generate_design_code` (556-567),
`generate_code` (630-640) and `review_code` (709-719): a case-sensitive
comparison against the exact string `"google"`, with every other provider
name mapped to `ChatOpenAI(model="gpt-4")`. -/
def route_llm (llm_provider model : List Char) : LLMClient :=
  if llm_provider = toL "google" then .chatGoogleGenerativeAI model
  else .chatOpenAI (toL "gpt-4")

/-! ### Code-bundle parsing (`mcp_server.py` 835-1021)

`parse_generated_code_response` first slices the span from the first open
brace to the last close brace and hands it to `json.loads` plus the
required-keys check; that decoder is Python standard-library code, not code
of this repository, so it is a parameter `decode` here (`none` covers both
`JSONDecodeError` and a missing required key).  On failure it falls back to
`create_fallback_code_structure`'s fence scan. -/

def fenceMarker : List Char := toL "```"

/-- `line.strip().startswith(fence)` (line 879). -/
def isFenceLine (l : List Char) : Bool := fenceMarker.isPrefixOf (strip l)

/-- Python `line.replace(fence, '')`: drop every occurrence of the
three-backtick marker, scanning left to right. -/
def removeTicks : List Char → List Char
  | c1 :: c2 :: c3 :: rest =>
    if c1 = '`' ∧ c2 = '`' ∧ c3 = '`' then removeTicks rest
    else c1 :: removeTicks (c2 :: c3 :: rest)
  | l => l

/-- The language tag of an opening fence line (line 890):
`line.replace(fence, '').strip() or actual_language`. -/
def fenceTag (l dflt : List Char) : List Char :=
  if (strip (removeTicks l)).isEmpty then dflt else strip (removeTicks l)

structure Block where
  language : List Char
  content : List Char
deriving DecidableEq

/-- The fence-scanning loop of `create_fallback_code_structure` (lines
873-899) plus its final unterminated-block rule: state is
`(current_block, current_content)`. -/
def collectBlocksAux (dflt : List Char) :
    List (List Char) → Option (List Char) → List (List Char) → List Block
  | [], cur, curContent =>
    match cur with
    | some lang => if curContent.isEmpty then [] else [⟨lang, joinNl curContent⟩]
    | none => []
  | l :: ls, cur, curContent =>
    if isFenceLine l then
      match cur with
      | some lang => ⟨lang, joinNl curContent⟩ :: collectBlocksAux dflt ls none []
      | none => collectBlocksAux dflt ls (some (fenceTag l dflt)) []
    else
      match cur with
      | some lang => collectBlocksAux dflt ls (some lang) (curContent ++ [l])
      | none => collectBlocksAux dflt ls none curContent

/-- `language if language != 'auto' else 'typescript'` (line 870). -/
def actualLanguage (language : List Char) : List Char :=
  if language = toL "auto" then toL "typescript" else language

/-- The `code_blocks` value of `create_fallback_code_structure` after the
zero-blocks check of lines 901-906. -/
def fallbackBlocks (content code_type language : List Char) : List Block :=
  if (collectBlocksAux (actualLanguage language) (splitNl content) none []).isEmpty then
    [⟨actualLanguage language, content⟩]
  else collectBlocksAux (actualLanguage language) (splitNl content) none []

/-- `get_file_extension` (`mcp_server.py` 949-966). -/
def get_file_extension (language : List Char) : List Char :=
  if language = toL "javascript" then toL "js"
  else if language = toL "typescript" then toL "ts"
  else if language = toL "python" then toL "py"
  else if language = toL "java" then toL "java"
  else if language = toL "csharp" then toL "cs"
  else if language = toL "go" then toL "go"
  else if language = toL "rust" then toL "rs"
  else if language = toL "php" then toL "php"
  else if language = toL "css" then toL "css"
  else if language = toL "html" then toL "html"
  else if language = toL "json" then toL "json"
  else toL "txt"

/-- `determine_filename` (`mcp_server.py` 928-947).  Note the Python `else:`
of line 941 catches every non-`'backend'` code type. -/
def determine_filename (language code_type : List Char) (index : Nat) : List Char :=
  if code_type = toL "backend" then
    if language = toL "python" then
      if index = 0 then toL "main.py" else toL "module_" ++ natToL index ++ toL ".py"
    else if language = toL "javascript" ∨ language = toL "typescript" then
      if index = 0 then toL "server.ts" else toL "module_" ++ natToL index ++ toL ".ts"
    else if language = toL "java" then
      if index = 0 then toL "Application.java" else toL "Service_" ++ natToL index ++ toL ".java"
    else if language = toL "csharp" then
      if index = 0 then toL "Program.cs" else toL "Service_" ++ natToL index ++ toL ".cs"
    else toL "code_" ++ natToL index ++ toL "." ++ get_file_extension language
  else
    if language = toL "javascript" ∨ language = toL "typescript" then
      if index = 0 then toL "App.tsx" else toL "Component_" ++ natToL index ++ toL ".tsx"
    else if language = toL "python" then
      if index = 0 then toL "app.py" else toL "component_" ++ natToL index ++ toL ".py"
    else toL "code_" ++ natToL index ++ toL "." ++ get_file_extension language

/-- `generate_project_structure` (`mcp_server.py` 968-997). -/
def generate_project_structure (code_type language : List Char) : List Char :=
  if code_type = toL "backend" then
    if language = toL "python" then
      toL "backend/\n├── main.py\n├── requirements.txt\n├── models/\n├── routes/\n└── config/"
    else
      toL "backend/\n├── src/\n│   ├── server.ts\n│   ├── routes/\n│   ├── models/\n│   └── config/\n├── package.json\n└── tsconfig.json"
  else
    toL "frontend/\n├── src/\n│   ├── App.tsx\n│   ├── components/\n│   ├── pages/\n│   └── styles/\n├── public/\n└── package.json"

/-- `generate_dependencies` (`mcp_server.py` 999-1009). -/
def generate_dependencies (code_type language : List Char) : List (List Char) :=
  if code_type = toL "backend" then
    if language = toL "python" then
      [toL "fastapi", toL "uvicorn", toL "pydantic", toL "python-dotenv"]
    else
      [toL "express", toL "cors", toL "typescript", toL "ts-node", toL "@types/node"]
  else
    [toL "react", toL "react-dom", toL "typescript", toL "@types/react", toL "@types/react-dom"]

/-- `generate_run_instructions` (`mcp_server.py` 1011-1021). -/
def generate_run_instructions (code_type language : List Char) : List Char :=
  if code_type = toL "backend" then
    if language = toL "python" then
      toL "pip install -r requirements.txt && uvicorn main:app --reload"
    else toL "npm install && npm run dev"
  else toL "npm install && npm start"

structure CodeFile where
  filename : List Char
  content : List Char
  ftype : List Char
  language : List Char
deriving DecidableEq

structure CodeBundle where
  language : List Char
  codeType : List Char
  files : List CodeFile
  projectStructure : List Char
  dependencies : List (List Char)
  runInstructions : List Char
deriving DecidableEq

/-- One file entry of lines 910-917 (`'main'` for index 0, else
`'component'`). -/
def mkFile (code_type : List Char) (i : Nat) (b : Block) : CodeFile :=
  ⟨determine_filename b.language code_type i, b.content,
    if i = 0 then toL "main" else toL "component", b.language⟩

/-- `create_fallback_code_structure` (`mcp_server.py` 866-926). -/
def create_fallback_code_structure (content code_type language : List Char) : CodeBundle :=
  ⟨actualLanguage language, code_type,
    (fallbackBlocks content code_type language).enum.map (fun p => mkFile code_type p.1 p.2),
    generate_project_structure code_type (actualLanguage language),
    generate_dependencies code_type (actualLanguage language),
    generate_run_instructions code_type (actualLanguage language)⟩

/-- The first-open-brace to last-close-brace slice of lines 845-850,
returned only when `json_start != -1 and json_end > json_start`. -/
def jsonSpan (text : List Char) : Option (List Char) :=
  match text.findIdx? (fun c => c = '\x7b'), (text.reverse.findIdx? (fun c => c = '\x7d')) with
  | some a, some ir =>
    if a < text.length - ir then some ((text.drop a).take (text.length - ir - a)) else none
  | _, _ => none

/-- `parse_generated_code_response` (`mcp_server.py` 835-864), with the
`json.loads` + required-keys validation supplied as `decode`.  `Sum.inl` is
the strict-JSON success path, `Sum.inr` the fallback bundle. -/
def parse_generated_code_response {J : Type} (decode : List Char → Option J)
    (llm_result code_type language : List Char) : J ⊕ CodeBundle :=
  match jsonSpan llm_result with
  | some span =>
    match decode span with
    | some p => Sum.inl p
    | none => Sum.inr (create_fallback_code_structure llm_result code_type language)
  | none => Sum.inr (create_fallback_code_structure llm_result code_type language)

/-- Specification-side description of a line list that consists of `bs.length`
well-formed (opened and closed) fenced blocks, possibly separated and
followed by fence-free text, together with the blocks it denotes in source
order.  `d` is the default language tag. -/
inductive Fenced (d : List Char) : List (List Char) → List Block → Prop
  | nil (tail : List (List Char)) (htail : ∀ l ∈ tail, isFenceLine l = false) :
      Fenced d tail []
  | block (pre o body close rest : _) (bs : List Block)
      (hpre : ∀ l ∈ pre, isFenceLine l = false) (ho : isFenceLine o = true)
      (hbody : ∀ l ∈ body, isFenceLine l = false) (hclose : isFenceLine close = true)
      (hrest : Fenced d rest bs) :
      Fenced d (pre ++ o :: (body ++ close :: rest)) (⟨fenceTag o d, joinNl body⟩ :: bs)

/-! ### The `/review-code` route (`mcp_server.py` 700-777)

`review_code` calls `parse_code_review_response(result_content, ...)` at
line 751, but no definition of that name exists anywhere in the module, so
at call time Python raises `NameError`, which the `except` of line 759
converts into a `success=false` response.  The empty type `ReviewData`
records that no parsed review value can ever be produced. -/

inductive ReviewData : Type

def parse_code_review_response_call (result_content : List Char) :
    Except (List Char) ReviewData :=
  .error (toL "NameError: name parse_code_review_response is not defined")

structure CodeReviewResponse where
  success : Bool
  data : Option ReviewData
  message : List Char
  error : Option (List Char)

/-- Environment of the three direct-LLM routes: LLM construction outcome,
the `llm.invoke` outcome and the formatted elapsed-seconds text. -/
structure GenEnv where
  llmOk : Bool
  llmErr : List Char
  run : AgentOutcome
  elapsed : List Char

/-- `review_code` (`mcp_server.py` 700-777): LLM construction, invocation,
then the parse step; the inner `except` of line 759 catches both an
invocation error and the `NameError` from the missing parser. -/
def review_code (env : GenEnv) : CodeReviewResponse :=
  if env.llmOk = false then
    ⟨false, none, toL "Failed to initialize LLM", some env.llmErr⟩
  else
    match env.run with
    | .raise m =>
      ⟨false, none, toL "Code review failed after " ++ env.elapsed ++ toL "s", some m⟩
    | .ok t =>
      match parse_code_review_response_call t with
      | .error m =>
        ⟨false, none, toL "Code review failed after " ++ env.elapsed ++ toL "s", some m⟩
      | .ok d => ⟨true, some d, toL "Code review completed successfully", none⟩

/-! ### Concrete inputs used by witnesses and counterexamples -/

def reqA : JiraIssueRequest :=
  ⟨toL "Add login", toL "User login page", toL "AURA", toL "Task", toL "Medium",
    toL "google", toL "gemini-2.5-pro"⟩

def envOkKeyless : JiraEnv :=
  ⟨true, true, .ok (toL "The issue was created."), true, .ok [], 7, false, []⟩

def envOkEmpty : JiraEnv :=
  ⟨true, true, .ok [], true, .ok [], 7, false, []⟩

def envKeyNoUrl : JiraEnv :=
  ⟨true, true, .ok (toL "Created issue AURA-42 successfully."), true, .ok [], 7, false, []⟩

def envRaiseValidation : JiraEnv :=
  ⟨true, true,
    .raise (toL "1 validation error for DynamicModel additional_fields Input should be a valid dictionary"),
    true, .ok (toL "ok"), 7, false, []⟩

def envRaiseOther : JiraEnv :=
  ⟨true, true, .raise (toL "Connection error"), true, .ok (toL "ok"), 7, false, []⟩

/-! ## Theorems

### List helper lemmas -/

theorem takeWhile_append_all {p : Char → Bool} {a : List Char} (b : List Char)
    (h : ∀ x ∈ a, p x = true) : (a ++ b).takeWhile p = a ++ b.takeWhile p := by
  induction a with
  | nil => simp
  | cons c t ih =>
    have hc : p c = true := h c (by simp)
    simp only [List.cons_append, List.takeWhile_cons_of_pos hc]
    rw [ih fun x hx => h x (by simp [hx])]

theorem dropWhile_append_all {p : Char → Bool} {a : List Char} (b : List Char)
    (h : ∀ x ∈ a, p x = true) : (a ++ b).dropWhile p = b.dropWhile p := by
  induction a with
  | nil => simp
  | cons c t ih =>
    have hc : p c = true := h c (by simp)
    simp only [List.cons_append, List.dropWhile_cons_of_pos hc]
    exact ih fun x hx => h x (by simp [hx])

theorem head?_dropWhile_false {p : Char → Bool} {l : List Char} {c : Char}
    (h : (l.dropWhile p).head? = some c) : p c = false := by
  have := List.head?_dropWhile_not p l
  rw [h] at this
  exact this

/-- Splitting `l` by the maximal `p`-run: `l = takeWhile ++ dropWhile`. -/
theorem takeWhile_dropWhile_split (p : Char → Bool) (l : List Char) :
    l = l.takeWhile p ++ l.dropWhile p := (List.takeWhile_append_dropWhile p l).symm

/-- Computing `takeWhile`/`dropWhile` on a list that starts with a maximal
`p`-run `A`. -/
theorem takeWhile_run {p : Char → Bool} {A r : List Char}
    (hAu : ∀ x ∈ A, p x = true) (hr : ∀ c, r.head? = some c → p c = false) :
    (A ++ r).takeWhile p = A ∧ (A ++ r).dropWhile p = r := by
  constructor
  · rw [takeWhile_append_all _ hAu]
    rcases r with _ | ⟨c, t⟩
    · simp
    · rw [List.takeWhile_cons_of_neg (by simp [hr c rfl])]
      simp
  · rw [dropWhile_append_all _ hAu]
    rcases r with _ | ⟨c, t⟩
    · simp
    · rw [List.dropWhile_cons_of_neg (by simp [hr c rfl])]

/-! ### Soundness and completeness of the anchored key matcher -/

theorem keyPat_build {A D : List Char} (hA : A ≠ [])
    (hAu : ∀ x ∈ A, isUpperCh x = true) (hD : D ≠ [])
    (hDd : ∀ x ∈ D, isDigitCh x = true) :
    keyPat (A ++ '-' :: D) = true := by
  obtain ⟨h1, h2⟩ := takeWhile_run (p := isUpperCh) (r := '-' :: D) hAu
    (fun c hc => by simp at hc; rw [← hc]; decide)
  have hAe : A.isEmpty = false := by
    rcases A with _ | _
    · exact absurd rfl hA
    · rfl
  have hDe : D.isEmpty = false := by
    rcases D with _ | _
    · exact absurd rfl hD
    · rfl
  unfold keyPat
  rw [h1, h2]
  simp [keyPatTail, hAe, hDe, List.all_eq_true.mpr hDd]

theorem keyPat_decomp {k : List Char} (h : keyPat k = true) :
    ∃ A D, k = A ++ '-' :: D ∧ A ≠ [] ∧ (∀ x ∈ A, isUpperCh x = true) ∧
      D ≠ [] ∧ ∀ x ∈ D, isDigitCh x = true := by
  obtain ⟨A, hA⟩ : ∃ A, A = k.takeWhile isUpperCh := ⟨_, rfl⟩
  obtain ⟨R, hR⟩ : ∃ R, R = k.dropWhile isUpperCh := ⟨_, rfl⟩
  have hsplit : k = A ++ R := by
    rw [hA, hR]; exact takeWhile_dropWhile_split isUpperCh k
  have hAu : ∀ x ∈ A, isUpperCh x = true := fun x hx =>
    List.mem_takeWhile_imp (hA ▸ hx)
  unfold keyPat at h
  rw [← hA, ← hR, Bool.and_eq_true] at h
  obtain ⟨hAe, hrest⟩ := h
  rcases R with _ | ⟨c, D⟩
  · simp [keyPatTail] at hrest
  · simp only [keyPatTail, Bool.and_eq_true, Bool.not_eq_true', decide_eq_true_eq] at hrest
    obtain ⟨⟨hc, hD⟩, hDd⟩ := hrest
    subst hc
    refine ⟨A, D, hsplit, ?_, hAu, ?_, List.all_eq_true.mp hDd⟩
    · intro hnil
      rw [hnil] at hAe
      simp at hAe
    · intro hnil
      rw [hnil] at hD
      simp at hD

/-- The anchored key matcher at an explicit decomposition point: it consumes
the whole uppercase run, the dash, and the maximal digit run. -/
theorem matchKeyHere_decomp {A D t : List Char} (hA : A ≠ [])
    (hAu : ∀ x ∈ A, isUpperCh x = true) (hD : D ≠ [])
    (hDd : ∀ x ∈ D, isDigitCh x = true) :
    matchKeyHere (A ++ '-' :: (D ++ t)) = some (A ++ '-' :: (D ++ t.takeWhile isDigitCh)) := by
  obtain ⟨h1, h2⟩ := takeWhile_run (p := isUpperCh) (r := '-' :: (D ++ t)) hAu
    (fun c hc => by simp at hc; rw [← hc]; decide)
  have h3 : (D ++ t).takeWhile isDigitCh = D ++ t.takeWhile isDigitCh :=
    takeWhile_append_all _ hDd
  have hAe : A.isEmpty = false := by
    rcases A with _ | _
    · exact absurd rfl hA
    · rfl
  have hDe : ((D ++ t).takeWhile isDigitCh).isEmpty = false := by
    rw [h3]
    rcases D with _ | _
    · exact absurd rfl hD
    · rfl
  unfold matchKeyHere
  rw [h1, h2, hAe]
  rw [if_neg Bool.false_ne_true]
  simp only [matchKeyTail]
  split
  · rw [hDe, if_neg Bool.false_ne_true, h3]
  · rename_i hFalse
    exact absurd trivial hFalse

theorem matchKeyHere_sound {l k : List Char} (h : matchKeyHere l = some k) :
    keyPat k = true ∧ ∃ rest, l = k ++ rest ∧
      ∀ c, rest.head? = some c → isDigitCh c = false := by
  obtain ⟨A, hA⟩ : ∃ A, A = l.takeWhile isUpperCh := ⟨_, rfl⟩
  obtain ⟨R, hR⟩ : ∃ R, R = l.dropWhile isUpperCh := ⟨_, rfl⟩
  have hsplit : l = A ++ R := by
    rw [hA, hR]; exact takeWhile_dropWhile_split isUpperCh l
  have hAu : ∀ x ∈ A, isUpperCh x = true := fun x hx =>
    List.mem_takeWhile_imp (hA ▸ hx)
  unfold matchKeyHere at h
  rw [← hA, ← hR] at h
  split at h
  · exact absurd h (by simp)
  · rename_i hAe
    rcases R with _ | ⟨c, r2⟩
    · simp [matchKeyTail] at h
    · simp only [matchKeyTail] at h
      split at h
      · rename_i hc
        subst hc
        split at h
        · exact absurd h (by simp)
        · rename_i hds
          obtain ⟨D, hD⟩ : ∃ D, D = r2.takeWhile isDigitCh := ⟨_, rfl⟩
          rw [← hD] at h hds
          have hk : k = A ++ '-' :: D := (Option.some.inj h).symm
          have hDd : ∀ x ∈ D, isDigitCh x = true := fun x hx =>
            List.mem_takeWhile_imp (hD ▸ hx)
          have hAne : A ≠ [] := by
            intro hnil
            rw [hnil] at hAe
            simp at hAe
          have hDne : D ≠ [] := by
            intro hnil
            rw [hnil] at hds
            simp at hds
          refine ⟨hk ▸ keyPat_build hAne hAu hDne hDd, r2.dropWhile isDigitCh, ?_, ?_⟩
          · have hr2split : r2 = D ++ r2.dropWhile isDigitCh := by
              rw [hD]; exact takeWhile_dropWhile_split isDigitCh r2
            rw [hsplit, hk]
            conv_lhs => rw [hr2split]
            simp
          · exact fun c hc => head?_dropWhile_false hc
      · exact absurd h (by simp)

theorem matchKeyHere_isSome {k l : List Char} (hk : keyPat k = true) (hp : k <+: l) :
    ∃ k2, matchKeyHere l = some k2 := by
  obtain ⟨A, D, rfl, hA, hAu, hD, hDd⟩ := keyPat_decomp hk
  obtain ⟨t, rfl⟩ := hp
  have hassoc : (A ++ '-' :: D) ++ t = A ++ '-' :: (D ++ t) := by simp
  rw [hassoc, matchKeyHere_decomp hA hAu hD hDd]
  exact ⟨_, rfl⟩

/-! ### Soundness and completeness of the anchored URL matcher -/

theorem drop8_https (x : List Char) : (httpsLit ++ x).drop 8 = x := by
  have h := List.drop_left httpsLit x
  rwa [show httpsLit.length = 8 from rfl] at h

theorem drop8_browse (x : List Char) : (browseLit ++ x).drop 8 = x := by
  have h := List.drop_left browseLit x
  rwa [show browseLit.length = 8 from rfl] at h

theorem browse_head_slash {x : List Char} {c : Char}
    (hc : (browseLit ++ x).head? = some c) : notSlash c = false := by
  obtain ⟨bt, hbt⟩ : ∃ bt, browseLit = '/' :: bt := ⟨toL "browse/", by decide⟩
  rw [hbt] at hc
  simp at hc
  rw [← hc]
  decide

/-- The host run and the rest, at a decomposition
`httpsLit ++ H ++ browseLit ++ y` with `H` slash-free. -/
theorem url_takeWhile_host {H y : List Char} (hH : ∀ x ∈ H, notSlash x = true) :
    (H ++ browseLit ++ y).takeWhile notSlash = H ∧
      (H ++ browseLit ++ y).dropWhile notSlash = browseLit ++ y := by
  have h := takeWhile_run (p := notSlash) (A := H) (r := browseLit ++ y) hH
    (fun c hc => browse_head_slash hc)
  rwa [← List.append_assoc] at h

theorem matchUrlHere_sound {l u : List Char} (h : matchUrlHere l = some u) :
    urlPat u = true ∧ ∃ rest, l = u ++ rest ∧
      ∀ c, rest.head? = some c → isDigitCh c = false := by
  unfold matchUrlHere at h
  split at h
  case isFalse => exact absurd h (by simp)
  case isTrue hpre =>
    obtain ⟨r, hr0⟩ := List.isPrefixOf_iff_prefix.mp hpre
    have hr : l = httpsLit ++ r := hr0.symm
    have hr8 : l.drop 8 = r := by rw [hr, drop8_https]
    rw [hr8] at h
    split at h
    case isFalse => exact absurd h (by simp)
    case isTrue hcond =>
      split at h
      case isFalse => exact absurd h (by simp)
      case isTrue hbrowse =>
        obtain ⟨H, hH⟩ : ∃ H, H = r.takeWhile notSlash := ⟨_, rfl⟩
        obtain ⟨R2, hR2⟩ : ∃ R2, R2 = r.dropWhile notSlash := ⟨_, rfl⟩
        have hrsplit : r = H ++ R2 := by
          rw [hH, hR2]; exact takeWhile_dropWhile_split notSlash r
        have hHs : ∀ x ∈ H, notSlash x = true := fun x hx =>
          List.mem_takeWhile_imp (hH ▸ hx)
        rw [← hH] at h hcond
        rw [← hR2] at h hbrowse
        obtain ⟨r3, hr30⟩ := List.isPrefixOf_iff_prefix.mp hbrowse
        have hr3 : R2 = browseLit ++ r3 := hr30.symm
        have hr38 : R2.drop 8 = r3 := by rw [hr3, drop8_browse]
        rw [hr38] at h
        cases hkm : matchKeyHere r3 with
        | none => rw [hkm] at h; exact absurd h (by simp)
        | some k =>
          rw [hkm] at h
          obtain ⟨hkpat, rest, hr3dec, hdig⟩ := matchKeyHere_sound hkm
          have hu : u = httpsLit ++ H ++ browseLit ++ k := (Option.some.inj h).symm
          -- computations on u
          have hu8 : u.drop 8 = H ++ browseLit ++ k := by
            rw [hu, List.append_assoc, List.append_assoc, drop8_https,
              ← List.append_assoc]
          obtain ⟨htw, hdw⟩ := url_takeWhile_host (y := k) hHs
          refine ⟨?_, rest, ?_, hdig⟩
          · unfold urlPat
            rw [hu8, htw, hdw]
            have h1 : httpsLit.isPrefixOf u = true := by
              rw [hu, List.append_assoc, List.append_assoc]
              exact List.isPrefixOf_iff_prefix.mpr (List.prefix_append _ _)
            have h2 : browseLit.isPrefixOf (browseLit ++ k) = true :=
              List.isPrefixOf_iff_prefix.mpr (List.prefix_append _ _)
            rw [h1, h2, drop8_browse, hkpat]
            simpa using hcond
          · rw [hr, hrsplit, hr3, hr3dec, hu]
            simp

theorem matchUrlHere_isSome {u l : List Char} (hu : urlPat u = true) (hp : u <+: l) :
    ∃ u2, matchUrlHere l = some u2 := by
  obtain ⟨t, ht⟩ := hp
  unfold urlPat at hu
  simp only [Bool.and_eq_true] at hu
  obtain ⟨⟨⟨⟨hpre, hlen⟩, hsuf⟩, hbrowse⟩, hkey⟩ := hu
  obtain ⟨ru, hru0⟩ := List.isPrefixOf_iff_prefix.mp hpre
  have hru : u = httpsLit ++ ru := hru0.symm
  have hu8 : u.drop 8 = ru := by rw [hru, drop8_https]
  rw [hu8] at hlen hsuf hbrowse hkey
  obtain ⟨H, hH⟩ : ∃ H, H = ru.takeWhile notSlash := ⟨_, rfl⟩
  obtain ⟨R2, hR2⟩ : ∃ R2, R2 = ru.dropWhile notSlash := ⟨_, rfl⟩
  have hrusplit : ru = H ++ R2 := by
    rw [hH, hR2]; exact takeWhile_dropWhile_split notSlash ru
  have hHs : ∀ x ∈ H, notSlash x = true := fun x hx =>
    List.mem_takeWhile_imp (hH ▸ hx)
  rw [← hH] at hlen hsuf
  rw [← hR2] at hbrowse hkey
  obtain ⟨k3, hk30⟩ := List.isPrefixOf_iff_prefix.mp hbrowse
  have hk3 : R2 = browseLit ++ k3 := hk30.symm
  have hk38 : R2.drop 8 = k3 := by rw [hk3, drop8_browse]
  rw [hk38] at hkey
  have hl : l = httpsLit ++ (H ++ browseLit ++ (k3 ++ t)) := by
    rw [← ht, hru, hrusplit, hk3]
    simp
  obtain ⟨htw, hdw⟩ := url_takeWhile_host (y := k3 ++ t) hHs
  have hl8 : l.drop 8 = H ++ browseLit ++ (k3 ++ t) := by rw [hl, drop8_https]
  obtain ⟨k2, hk2⟩ := matchKeyHere_isSome hkey ⟨t, rfl⟩
  have c1 : httpsLit.isPrefixOf l = true := by
    rw [hl]
    exact List.isPrefixOf_iff_prefix.mpr (List.prefix_append _ _)
  have c2 : (l.drop 8).takeWhile notSlash = H := by rw [hl8]; exact htw
  have c3 : (l.drop 8).dropWhile notSlash = browseLit ++ (k3 ++ t) := by
    rw [hl8]; exact hdw
  have c4 : browseLit.isPrefixOf (browseLit ++ (k3 ++ t)) = true :=
    List.isPrefixOf_iff_prefix.mpr (List.prefix_append _ _)
  have c5 : (decide (14 < H.length) && atlassianLit.isSuffixOf H) = true := by
    rw [hlen, hsuf]
    decide
  refine ⟨httpsLit ++ H ++ browseLit ++ k2, ?_⟩
  unfold matchUrlHere
  rw [c1, c2, c3, drop8_browse, hk2, c4, c5]
  simp

/-! ### Characterization of `re.search` (leftmost scan) -/

theorem reSearch_none_all {m : List Char → Option (List Char)} (hm : m [] = none)
    {s : List Char} :
    reSearch m s = none → ∀ i, m (s.drop i) = none := by
  induction s with
  | nil =>
    intro h i
    simpa using hm
  | cons c rest ih =>
    intro h i
    unfold reSearch at h
    cases hm0 : m (c :: rest) with
    | some k =>
      rw [hm0] at h
      exact absurd h (by simp)
    | none =>
      rw [hm0] at h
      simp only [] at h
      rcases i with _ | i
      · simpa using hm0
      · rw [List.drop_succ_cons]
        exact ih h i

theorem reSearch_some_first {m : List Char → Option (List Char)} {s k : List Char} :
    reSearch m s = some k →
      ∃ i, m (s.drop i) = some k ∧ ∀ j, j < i → m (s.drop j) = none := by
  induction s with
  | nil =>
    intro h
    simp [reSearch] at h
  | cons c rest ih =>
    intro h
    unfold reSearch at h
    cases hm0 : m (c :: rest) with
    | some k2 =>
      rw [hm0] at h
      simp only [Option.some.injEq] at h
      refine ⟨0, ?_, ?_⟩
      · rw [List.drop_zero, hm0, h]
      · intro j hj
        omega
    | none =>
      rw [hm0] at h
      simp only [] at h
      obtain ⟨i, hi, hlt⟩ := ih h
      refine ⟨i + 1, ?_, ?_⟩
      · rw [List.drop_succ_cons]
        exact hi
      · intro j hj
        rcases j with _ | j
        · rw [List.drop_zero]
          exact hm0
        · rw [List.drop_succ_cons]
          exact hlt j (by omega)

/-! ### The searches return the first (leftmost, greedy) match -/

theorem searchKey_first {s k : List Char} (h : searchKey s = some k) :
    FirstKeyMatch s k := by
  obtain ⟨i, hi, hlt⟩ := reSearch_some_first h
  obtain ⟨hpat, rest, hdecomp, hdig⟩ := matchKeyHere_sound hi
  unfold FirstKeyMatch
  refine ⟨i, ⟨hpat, ⟨rest, hdecomp.symm⟩⟩, ?_, ?_⟩
  · intro j k2 hj hm2
    unfold keyMatchAt at hm2
    obtain ⟨hpat2, hpre2⟩ := hm2
    obtain ⟨k3, hk3⟩ := matchKeyHere_isSome hpat2 hpre2
    rw [hlt j hj] at hk3
    exact absurd hk3 (by simp)
  · intro c hc
    apply hdig
    rw [← hc]
    rw [← List.drop_drop, hdecomp, List.drop_left]

theorem searchUrl_first {s u : List Char} (h : searchUrl s = some u) :
    FirstUrlMatch s u := by
  obtain ⟨i, hi, hlt⟩ := reSearch_some_first h
  obtain ⟨hpat, rest, hdecomp, hdig⟩ := matchUrlHere_sound hi
  unfold FirstUrlMatch
  refine ⟨i, ⟨hpat, ⟨rest, hdecomp.symm⟩⟩, ?_, ?_⟩
  · intro j u2 hj hm2
    unfold urlMatchAt at hm2
    obtain ⟨hpat2, hpre2⟩ := hm2
    obtain ⟨u3, hu3⟩ := matchUrlHere_isSome hpat2 hpre2
    rw [hlt j hj] at hu3
    exact absurd hu3 (by simp)
  · intro c hc
    apply hdig
    rw [← hc]
    rw [← List.drop_drop, hdecomp, List.drop_left]

theorem searchKey_isSome_of_infix {s k : List Char} (hpat : keyPat k = true)
    (hinf : k <:+: s) : ∃ k2, searchKey s = some k2 := by
  cases hsk : searchKey s with
  | some k2 => exact ⟨k2, rfl⟩
  | none =>
    exfalso
    obtain ⟨p, t, hpt⟩ := hinf
    have hdropP : s.drop p.length = k ++ t := by
      rw [← hpt, List.append_assoc, List.drop_left]
    obtain ⟨k3, hk3⟩ := matchKeyHere_isSome hpat (⟨t, rfl⟩ : k <+: k ++ t)
    have := reSearch_none_all (m := matchKeyHere) (by decide) hsk p.length
    rw [hdropP, hk3] at this
    exact absurd this (by simp)

theorem searchUrl_isSome_of_infix {s u : List Char} (hpat : urlPat u = true)
    (hinf : u <:+: s) : ∃ u2, searchUrl s = some u2 := by
  cases hsu : searchUrl s with
  | some u2 => exact ⟨u2, rfl⟩
  | none =>
    exfalso
    obtain ⟨p, t, hpt⟩ := hinf
    have hdropP : s.drop p.length = u ++ t := by
      rw [← hpt, List.append_assoc, List.drop_left]
    obtain ⟨u3, hu3⟩ := matchUrlHere_isSome hpat (⟨t, rfl⟩ : u <+: u ++ t)
    have := reSearch_none_all (m := matchUrlHere) (by decide) hsu p.length
    rw [hdropP, hu3] at this
    exact absurd this (by simp)

/-! ### Claim C3 -/

/-- C3: for every raw response text containing both a well-formed issue key
(`[A-Z]+-[0-9]+`) and a well-formed `https://<host>.atlassian.net/browse/<KEY>`
URL, `extract_jira_issue_info` returns exactly the first such key and the
first such URL — the leftmost, greedy matches, both literal substrings of the
input (no transformation of either string). -/
theorem c3_extraction_returns_first_key_and_url (s : List Char)
    (hk : ∃ k, keyPat k = true ∧ k <:+: s)
    (hu : ∃ u, urlPat u = true ∧ u <:+: s) :
    ∃ k u, extract_jira_issue_info s = some (k, u) ∧
      FirstKeyMatch s k ∧ FirstUrlMatch s u := by
  obtain ⟨k0, hk0, hkinf⟩ := hk
  obtain ⟨u0, hu0, huinf⟩ := hu
  obtain ⟨k, hks⟩ := searchKey_isSome_of_infix hk0 hkinf
  obtain ⟨u, hus⟩ := searchUrl_isSome_of_infix hu0 huinf
  refine ⟨k, u, ?_, searchKey_first hks, searchUrl_first hus⟩
  unfold extract_jira_issue_info
  rw [hks, hus]

/-- Witness for C3, at the spec's own scenario input
`"Created AURA-42 at https://acme.atlassian.net/browse/AURA-42"`. -/
theorem c3_witness :
    extract_jira_issue_info (toL "Created AURA-42 at https://acme.atlassian.net/browse/AURA-42")
        = some (toL "AURA-42", toL "https://acme.atlassian.net/browse/AURA-42") ∧
      ∃ k u,
        extract_jira_issue_info
            (toL "Created AURA-42 at https://acme.atlassian.net/browse/AURA-42")
            = some (k, u) ∧
          FirstKeyMatch (toL "Created AURA-42 at https://acme.atlassian.net/browse/AURA-42") k ∧
          FirstUrlMatch (toL "Created AURA-42 at https://acme.atlassian.net/browse/AURA-42") u :=
  ⟨by decide,
    c3_extraction_returns_first_key_and_url _
      ⟨toL "AURA-42", by decide,
        toL "Created ", toL " at https://acme.atlassian.net/browse/AURA-42", by decide⟩
      ⟨toL "https://acme.atlassian.net/browse/AURA-42", by decide,
        toL "Created AURA-42 at ", toL "", by decide⟩⟩

/-! ### Helper lemmas for the endpoint claims -/

theorem searchUrl_none_of_hasUrlB_false {s : List Char} (h : hasUrlB s = false) :
    searchUrl s = none := by
  cases hs : searchUrl s with
  | none => rfl
  | some u =>
    unfold hasUrlB at h
    rw [hs] at h
    simp at h

theorem searchKey_none_of_hasKeyB_false {s : List Char} (h : hasKeyB s = false) :
    searchKey s = none := by
  cases hs : searchKey s with
  | none => rfl
  | some k =>
    unfold hasKeyB at h
    rw [hs] at h
    simp at h

theorem extract_none_of_no_url {s : List Char} (h : hasUrlB s = false) :
    extract_jira_issue_info s = none := by
  unfold extract_jira_issue_info
  rw [searchUrl_none_of_hasUrlB_false h]
  cases searchKey s <;> rfl

theorem extract_none_of_no_key {s : List Char} (h : hasKeyB s = false) :
    extract_jira_issue_info s = none := by
  unfold extract_jira_issue_info
  rw [searchKey_none_of_hasKeyB_false h]

theorem process_extract_success (req : JiraIssueRequest) (t : List Char) :
    (process_extract req t).success = true := by
  unfold process_extract
  split <;> rfl

theorem create_mock_cases (env : JiraEnv) (req : JiraIssueRequest) :
    (create_mock_jira_issue env req).success = true ∨
      (env.mockRaises = true ∧ (create_mock_jira_issue env req).success = false ∧
        (create_mock_jira_issue env req).issue_key = [] ∧
        (create_mock_jira_issue env req).issue_url = []) := by
  unfold create_mock_jira_issue
  by_cases h : env.mockRaises = true
  · rw [if_pos h]
    right
    exact ⟨h, rfl, rfl, rfl⟩
  · rw [if_neg h]
    left
    rfl

theorem placeholder_NEW_false (project : List Char) :
    placeholderKeyMatch project (project ++ toL "-NEW") = false := by
  unfold placeholderKeyMatch
  have h1 : project.isPrefixOf (project ++ toL "-NEW") = true :=
    List.isPrefixOf_iff_prefix.mpr (List.prefix_append _ _)
  have h2 : (project ++ toL "-NEW").drop project.length = toL "-NEW" :=
    List.drop_left _ _
  rw [h1, h2]
  decide

theorem digitChar_digit {n : Nat} (h : n < 10) : isDigitCh (digitChar n) = true := by
  interval_cases n <;> decide

theorem natToLAux_step' (fuel n : Nat) (h10 : 10 ≤ n) (hf : 1 ≤ fuel) :
    natToLAux fuel n = natToLAux (fuel - 1) (n / 10) ++ [digitChar (n % 10)] := by
  obtain ⟨f, rfl⟩ : ∃ f, fuel = f + 1 := ⟨fuel - 1, by omega⟩
  simp only [Nat.add_sub_cancel]
  rw [show natToLAux (f + 1) n
      = if n < 10 then [digitChar n] else natToLAux f (n / 10) ++ [digitChar (n % 10)] from rfl]
  rw [if_neg (by omega)]

theorem natToLAux_base' (fuel n : Nat) (h : n < 10) (hf : 1 ≤ fuel) :
    natToLAux fuel n = [digitChar n] := by
  obtain ⟨f, rfl⟩ : ∃ f, fuel = f + 1 := ⟨fuel - 1, by omega⟩
  rw [show natToLAux (f + 1) n
      = if n < 10 then [digitChar n] else natToLAux f (n / 10) ++ [digitChar (n % 10)] from rfl]
  rw [if_pos h]

/-- `str(n)` of a number in `[1000, 9999]` is its four decimal digits. -/
theorem natToL_four {n : Nat} (h1 : 1000 ≤ n) (h2 : n < 10000) :
    natToL n = [digitChar (n / 1000), digitChar (n / 100 % 10),
      digitChar (n / 10 % 10), digitChar (n % 10)] := by
  have hd2 : n / 10 / 10 = n / 100 := by
    rw [Nat.div_div_eq_div_mul]
  have hd3 : n / 100 / 10 = n / 1000 := by
    rw [Nat.div_div_eq_div_mul]
  have hm2 : n / 10 % 10 = n / 10 % 10 := rfl
  have e1 : natToL n = natToLAux n (n / 10) ++ [digitChar (n % 10)] := by
    unfold natToL
    rw [natToLAux_step' (n + 1) n (by omega) (by omega)]
    simp only [Nat.add_sub_cancel]
  have e2 : natToLAux n (n / 10) = natToLAux (n - 1) (n / 100) ++ [digitChar (n / 10 % 10)] := by
    rw [natToLAux_step' n (n / 10) (by omega) (by omega), hd2]
  have e3 : natToLAux (n - 1) (n / 100)
      = natToLAux (n - 1 - 1) (n / 1000) ++ [digitChar (n / 100 % 10)] := by
    rw [natToLAux_step' (n - 1) (n / 100) (by omega) (by omega), hd3]
  have e4 : natToLAux (n - 1 - 1) (n / 1000) = [digitChar (n / 1000)] :=
    natToLAux_base' _ _ (by omega) (by omega)
  rw [e1, e2, e3, e4]
  simp

/-- The mock issue number `1000 + rand % 9000` renders as `{project}-\d{4}`,
hence matches the placeholder format `^{project}-\d{1,4}$`. -/
theorem placeholder_mock_true (project : List Char) (n : Nat) :
    placeholderKeyMatch project (project ++ '-' :: natToL (1000 + n % 9000)) = true := by
  have hm1 : 1000 ≤ 1000 + n % 9000 := by omega
  have hm2 : 1000 + n % 9000 < 10000 := by omega
  unfold placeholderKeyMatch
  have h1 : project.isPrefixOf (project ++ '-' :: natToL (1000 + n % 9000)) = true :=
    List.isPrefixOf_iff_prefix.mpr (List.prefix_append _ _)
  have h2 : (project ++ '-' :: natToL (1000 + n % 9000)).drop project.length
      = '-' :: natToL (1000 + n % 9000) := List.drop_left _ _
  rw [h1, h2, natToL_four hm1 hm2]
  simp only [placeholderTail]
  have d3 := digitChar_digit (n := (1000 + n % 9000) / 1000) (by omega)
  have d2 := digitChar_digit (n := (1000 + n % 9000) / 100 % 10) (by omega)
  have d1 := digitChar_digit (n := (1000 + n % 9000) / 10 % 10) (by omega)
  have d0 := digitChar_digit (n := (1000 + n % 9000) % 10) (by omega)
  simp only [List.all_cons, List.all_nil, d3, d2, d1, d0]
  have hlen : [digitChar ((1000 + n % 9000) / 1000), digitChar ((1000 + n % 9000) / 100 % 10),
      digitChar ((1000 + n % 9000) / 10 % 10), digitChar ((1000 + n % 9000) % 10)].length = 4 := by
    simp
  rw [hlen]
  simp

/-! ### Claim C2 -/

/-- C2 counterexample: the input `"Created issue AURA-42 successfully."`
contains the key `AURA-42` and no browse URL, yet extraction returns `none` —
not a structured result with a synthesized placeholder URL as the claim
states. -/
theorem c2_counterexample :
    keyPat (toL "AURA-42") = true ∧
      (toL "AURA-42") <:+: (toL "Created issue AURA-42 successfully.") ∧
      (¬ ∃ u, urlPat u = true ∧ u <:+: (toL "Created issue AURA-42 successfully.")) ∧
      extract_jira_issue_info (toL "Created issue AURA-42 successfully.") = none := by
  refine ⟨by decide, ⟨toL "Created issue ", toL " successfully.", by decide⟩, ?_, by decide⟩
  rintro ⟨u, hu, hinf⟩
  obtain ⟨u2, hu2⟩ := searchUrl_isSome_of_infix hu hinf
  have hfalse : hasUrlB (toL "Created issue AURA-42 successfully.") = false := by decide
  unfold hasUrlB at hfalse
  rw [hu2] at hfalse
  simp at hfalse

/-- C2 (amended): for raw response text containing an issue key but no browse
URL, `extract_jira_issue_info` returns `none` — no URL is synthesized — and
the endpoint's unclear-parse branch then returns `success=true` with the
literal `{project}-NEW` placeholder key and URL. -/
theorem c2_amended_key_without_url (s : List Char) (env : JiraEnv)
    (req : JiraIssueRequest) (hk : hasKeyB s = true) (hu : hasUrlB s = false)
    (hc : env.clientOk = true) (ha : env.agentOk = true)
    (hr : env.firstRun = .ok s) :
    extract_jira_issue_info s = none ∧
      (create_jira_issue env req).1
        = ⟨true, req.project ++ toL "-NEW",
            toL "https://rowen.atlassian.net/browse/" ++ (req.project ++ toL "-NEW"),
            toL "Issue creation completed but response parsing unclear"⟩ := by
  have hext := extract_none_of_no_url hu
  refine ⟨hext, ?_⟩
  have hsne : s.isEmpty = false := by
    rcases s with _ | _
    · exact absurd hk (by decide)
    · rfl
  simp [create_jira_issue, run_agent_phase, hc, ha, hr, hsne, process_extract, hext]

/-- Witness for C2's amended claim. -/
theorem c2_amended_witness :
    extract_jira_issue_info (toL "Created issue AURA-42 successfully.") = none ∧
      (create_jira_issue envKeyNoUrl reqA).1
        = ⟨true, reqA.project ++ toL "-NEW",
            toL "https://rowen.atlassian.net/browse/" ++ (reqA.project ++ toL "-NEW"),
            toL "Issue creation completed but response parsing unclear"⟩ :=
  c2_amended_key_without_url _ envKeyNoUrl reqA (by decide) (by decide) rfl rfl rfl

/-! ### Claim C1 -/

/-- C1 counterexample: a nonempty raw response with no issue key does NOT
produce a key matching `^{project}-\d{1,4}$`: the endpoint returns
`success=true` with the literal key `AURA-NEW`, and the mock fallback (whose
keys do match the placeholder format) is not taken. -/
theorem c1_counterexample :
    hasKeyB (toL "The issue was created.") = false ∧
      (create_jira_issue envOkKeyless reqA).1.success = true ∧
      (create_jira_issue envOkKeyless reqA).1.issue_key = toL "AURA-NEW" ∧
      placeholderKeyMatch (toL "AURA")
        ((create_jira_issue envOkKeyless reqA).1.issue_key) = false := by
  decide

/-- C1 (amended): for an IssueCreation request whose raw response contains no
issue key, the endpoint still returns `success=true` and never raises, but:
if the response text is nonempty the key is the literal `{project}-NEW`,
which does not match `^{project}-\d{1,4}$`; only when the response text is
empty (or an exception was raised) is the mock fallback taken, whose key
`{project}-<1000..9999>` does match the placeholder format. -/
theorem c1_amended_keyless (env : JiraEnv) (req : JiraIssueRequest) (s : List Char)
    (hc : env.clientOk = true) (ha : env.agentOk = true)
    (hr : env.firstRun = .ok s) (hk : hasKeyB s = false) :
    (s.isEmpty = false →
      (create_jira_issue env req).1.success = true ∧
      (create_jira_issue env req).1.issue_key = req.project ++ toL "-NEW" ∧
      placeholderKeyMatch req.project ((create_jira_issue env req).1.issue_key) = false) ∧
    (s.isEmpty = true → env.mockRaises = false →
      (create_jira_issue env req).1.success = true ∧
      placeholderKeyMatch req.project ((create_jira_issue env req).1.issue_key) = true) := by
  have hext := extract_none_of_no_key hk
  constructor
  · intro hsne
    have hkey : (create_jira_issue env req).1
        = ⟨true, req.project ++ toL "-NEW",
            toL "https://rowen.atlassian.net/browse/" ++ (req.project ++ toL "-NEW"),
            toL "Issue creation completed but response parsing unclear"⟩ := by
      simp [create_jira_issue, run_agent_phase, hc, ha, hr, hsne, process_extract, hext]
    rw [hkey]
    exact ⟨rfl, rfl, placeholder_NEW_false req.project⟩
  · intro hse hmr
    have hs : s = [] := by
      rcases s with _ | _
      · rfl
      · simp at hse
    have hkey : (create_jira_issue env req).1 = create_mock_jira_issue env req := by
      simp [create_jira_issue, run_agent_phase, hc, ha, hr, hs]
    rw [hkey]
    unfold create_mock_jira_issue
    rw [if_neg (by simp [hmr])]
    exact ⟨rfl, placeholder_mock_true req.project env.mockRand⟩

/-- Witness for C1's amended claim: one environment with a nonempty keyless
response (the `-NEW` branch) and one with an empty response (the mock
branch). -/
theorem c1_amended_witness :
    ((toL "The issue was created.").isEmpty = false →
      (create_jira_issue envOkKeyless reqA).1.success = true ∧
      (create_jira_issue envOkKeyless reqA).1.issue_key = reqA.project ++ toL "-NEW" ∧
      placeholderKeyMatch reqA.project
        ((create_jira_issue envOkKeyless reqA).1.issue_key) = false) ∧
    ((toL "The issue was created.").isEmpty = true → envOkKeyless.mockRaises = false →
      (create_jira_issue envOkKeyless reqA).1.success = true ∧
      placeholderKeyMatch reqA.project
        ((create_jira_issue envOkKeyless reqA).1.issue_key) = true) :=
  c1_amended_keyless envOkKeyless reqA _ rfl rfl rfl (by decide)

/-! ### Claim C10 -/

/-- C10: for every IssueCreation request and environment — provider call
succeeding, failing, or returning unparseable text — the endpoint's response
has `success=true`; the only path producing `success=false` is an exception
inside the mock-issue construction itself, and in that case `issue_key` and
`issue_url` are empty strings. -/
theorem c10_success_unless_mock_raises (env : JiraEnv) (req : JiraIssueRequest) :
    (create_jira_issue env req).1.success = true ∨
      (env.mockRaises = true ∧ (create_jira_issue env req).1.success = false ∧
        (create_jira_issue env req).1.issue_key = [] ∧
        (create_jira_issue env req).1.issue_url = []) := by
  have hmock := create_mock_cases env req
  unfold create_jira_issue
  split
  · simpa using hmock
  · split
    · simpa using hmock
    · split
      · rename_i t calls heq
        split
        · simpa using hmock
        · left
          simpa using process_extract_success req t
      · simpa using hmock

/-! ### Claim C6 -/

/-- C6: when the provider call raises an exception whose message contains
`"validation error"` (case-insensitively) and `"DynamicModel"`, exactly one
retry is issued, directed at the fixed secondary provider
(`openai`/`gpt-4`) with the simplified scalar-only prompt, before any
terminal result; a non-matching message triggers no retry. -/
theorem c6_validation_retry (env : JiraEnv) (req : JiraIssueRequest) (m : List Char)
    (hc : env.clientOk = true) (ha : env.agentOk = true)
    (hr : env.firstRun = .raise m) :
    (isValidationSignature m = true → env.fallbackAgentOk = true →
      (create_jira_issue env req).2
        = [⟨req.llm_provider, req.model, .createPrompt⟩,
           ⟨toL "openai", toL "gpt-4", .simplifiedPrompt⟩]) ∧
    (isValidationSignature m = false →
      (create_jira_issue env req).2 = [⟨req.llm_provider, req.model, .createPrompt⟩]) := by
  constructor
  · intro hsig hfb
    rcases hrr : env.retryRun with t | m2 <;>
      simp [create_jira_issue, run_agent_phase, hc, ha, hr, hsig, hfb, hrr]
  · intro hsig
    simp [create_jira_issue, run_agent_phase, hc, ha, hr, hsig]

/-- Witness for C6: the spec's validation-error message triggers exactly the
one `openai`/`gpt-4` simplified retry; a connection error triggers none. -/
theorem c6_witness :
    (create_jira_issue envRaiseValidation reqA).2
        = [⟨reqA.llm_provider, reqA.model, .createPrompt⟩,
           ⟨toL "openai", toL "gpt-4", .simplifiedPrompt⟩] ∧
      (create_jira_issue envRaiseOther reqA).2
        = [⟨reqA.llm_provider, reqA.model, .createPrompt⟩] :=
  ⟨(c6_validation_retry envRaiseValidation reqA _ rfl rfl rfl).1 (by decide) rfl,
   (c6_validation_retry envRaiseOther reqA _ rfl rfl rfl).2 (by decide)⟩

/-! ### Claim C7 -/

/-- C7 counterexample: a request carrying the unrecognized provider name
`"mistral"` is rejected by `get_agent`'s resolution, but on the
code-generation/design/review routes it is not rejected at all — it is
silently substituted with `ChatOpenAI gpt-4`, so resolution for such a
request does not fail and the provider IS substituted. -/
theorem c7_counterexample :
    select_llm (toL "mistral") (toL "some-model")
        = .error (.unsupportedProvider (toL "mistral")) ∧
      route_llm (toL "mistral") (toL "some-model") = .chatOpenAI (toL "gpt-4") :=
  ⟨rfl, rfl⟩

/-- C7 (amended): `get_agent`'s resolution (the test-execution and
issue-creation paths) fails with `UnsupportedProvider` for every name that is
not `openai`, `anthropic` or `google` case-insensitively; the design,
code-generation and review routes instead compare only against the exact
string `"google"` and substitute `ChatOpenAI gpt-4` for every other name
rather than failing. -/
theorem c7_amended_provider_resolution (p m : List Char)
    (ho : lowerL p ≠ toL "openai") (ha : lowerL p ≠ toL "anthropic")
    (hg : lowerL p ≠ toL "google") :
    select_llm p m = .error (.unsupportedProvider p) ∧
      route_llm p m = .chatOpenAI (toL "gpt-4") := by
  constructor
  · unfold select_llm
    rw [if_neg ho, if_neg ha, if_neg hg]
  · have hne : p ≠ toL "google" := by
      intro hpe
      apply hg
      rw [hpe]
      decide
    unfold route_llm
    rw [if_neg hne]

/-- Witness for C7's amended claim. -/
theorem c7_amended_witness :
    select_llm (toL "cohere") (toL "m") = .error (.unsupportedProvider (toL "cohere")) ∧
      route_llm (toL "cohere") (toL "m") = .chatOpenAI (toL "gpt-4") :=
  c7_amended_provider_resolution (toL "cohere") (toL "m") (by decide) (by decide) (by decide)

/-! ### Claim C8 -/

/-- C8: the code-review parse step cannot degrade to the full-text fallback:
`parse_code_review_response` is not defined anywhere in the module, so for
every input the call raises `NameError` and the route's `except` turns it
into a `success=false` response — the extractor does raise to its caller. -/
theorem c8_review_parse_raises (env : GenEnv) (t : List Char)
    (hok : env.llmOk = true) (hr : env.run = .ok t) :
    parse_code_review_response_call t
        = .error (toL "NameError: name parse_code_review_response is not defined") ∧
      (review_code env).success = false := by
  refine ⟨rfl, ?_⟩
  simp [review_code, hok, hr, parse_code_review_response_call]

/-- Witness for C8. -/
theorem c8_witness :
    parse_code_review_response_call (toL "Looks good")
        = .error (toL "NameError: name parse_code_review_response is not defined") ∧
      (review_code ⟨true, [], .ok (toL "Looks good"), toL "0.10"⟩).success = false :=
  c8_review_parse_raises ⟨true, [], .ok (toL "Looks good"), toL "0.10"⟩ _ rfl rfl

/-! ### The fence scan of `create_fallback_code_structure` -/

theorem if_bool_true {α : Sort _} (a b : α) : (if true = true then a else b) = a := rfl

theorem if_bool_false {α : Sort _} (a b : α) : (if false = true then a else b) = b := rfl

theorem ne_nil_isEmpty_false {α : Type} {l : List α} (h : l ≠ []) : l.isEmpty = false := by
  rcases l with _ | _
  · exact absurd rfl h
  · rfl

theorem collect_nil_none (d : List Char) (cc : List (List Char)) :
    collectBlocksAux d [] none cc = [] := rfl

theorem collect_nil_some (d lang : List Char) (cc : List (List Char)) :
    collectBlocksAux d [] (some lang) cc
      = if cc.isEmpty then [] else [⟨lang, joinNl cc⟩] := rfl

theorem collect_cons_none (d l : List Char) (ls cc : List (List Char)) :
    collectBlocksAux d (l :: ls) none cc
      = if isFenceLine l then collectBlocksAux d ls (some (fenceTag l d)) []
        else collectBlocksAux d ls none cc := rfl

theorem collect_cons_some (d lang l : List Char) (ls cc : List (List Char)) :
    collectBlocksAux d (l :: ls) (some lang) cc
      = if isFenceLine l then ⟨lang, joinNl cc⟩ :: collectBlocksAux d ls none []
        else collectBlocksAux d ls (some lang) (cc ++ [l]) := rfl

/-- Outside a fence, fence-free lines produce no blocks. -/
theorem collect_none_fence_free (d : List Char) :
    ∀ (ls : List (List Char)) (cc : List (List Char)),
      (∀ l ∈ ls, isFenceLine l = false) → collectBlocksAux d ls none cc = [] := by
  intro ls
  induction ls with
  | nil => intro cc h; rfl
  | cons l ls ih =>
    intro cc h
    rw [collect_cons_none, h l (by simp), if_bool_false]
    exact ih cc (fun x hx => h x (by simp [hx]))

/-- Inside an unterminated fence, fence-free lines accumulate into the final
trailing block, which is emitted exactly when something was accumulated. -/
theorem collect_some_fence_free (d lang : List Char) :
    ∀ (rest cc : List (List Char)), (∀ l ∈ rest, isFenceLine l = false) →
      collectBlocksAux d rest (some lang) cc
        = if (cc ++ rest).isEmpty then [] else [⟨lang, joinNl (cc ++ rest)⟩] := by
  intro rest
  induction rest with
  | nil =>
    intro cc h
    rw [collect_nil_some]
    simp
  | cons l ls ih =>
    intro cc h
    rw [collect_cons_some, h l (by simp), if_bool_false]
    rw [ih (cc ++ [l]) (fun x hx => h x (by simp [hx]))]
    have hx : (cc ++ [l]) ++ ls = cc ++ (l :: ls) := by simp
    rw [hx]

/-- Inside a fence, scanning the fence-free body up to the closing fence
emits exactly one block and resets the state. -/
theorem collect_some_until_close (d lang : List Char) :
    ∀ (body : List (List Char)) (close : List Char) (rest cc : List (List Char)),
      (∀ l ∈ body, isFenceLine l = false) → isFenceLine close = true →
      collectBlocksAux d (body ++ close :: rest) (some lang) cc
        = ⟨lang, joinNl (cc ++ body)⟩ :: collectBlocksAux d rest none [] := by
  intro body
  induction body with
  | nil =>
    intro close rest cc hb hc
    rw [List.nil_append, collect_cons_some, hc, if_bool_true]
    simp
  | cons l ls ih =>
    intro close rest cc hb hc
    rw [List.cons_append, collect_cons_some, hb l (by simp), if_bool_false]
    rw [ih close rest (cc ++ [l]) (fun x hx => hb x (by simp [hx])) hc]
    have hx : (cc ++ [l]) ++ ls = cc ++ (l :: ls) := by simp
    rw [hx]

/-- Outside a fence, a fence-free prefix is skipped. -/
theorem collect_skip_junk (d : List Char) :
    ∀ (pre ls cc : List (List Char)), (∀ l ∈ pre, isFenceLine l = false) →
      collectBlocksAux d (pre ++ ls) none cc = collectBlocksAux d ls none cc := by
  intro pre
  induction pre with
  | nil => intro ls cc h; rw [List.nil_append]
  | cons l ps ih =>
    intro ls cc h
    rw [List.cons_append, collect_cons_none, h l (by simp), if_bool_false]
    exact ih ls cc (fun x hx => h x (by simp [hx]))

/-- The scan over a `Fenced` line list produces exactly its blocks, and any
suffix is processed from the outside-a-fence state. -/
theorem collect_fenced (d : List Char) {ls : List (List Char)} {bs : List Block}
    (h : Fenced d ls bs) :
    ∀ suffix, collectBlocksAux d (ls ++ suffix) none []
      = bs ++ collectBlocksAux d suffix none [] := by
  induction h with
  | nil tail htail =>
    intro suffix
    rw [collect_skip_junk d tail suffix [] htail]
    simp
  | block pre o body close rest bs hpre ho hbody hclose hrest ih =>
    intro suffix
    have h1 : (pre ++ o :: (body ++ close :: rest)) ++ suffix
        = pre ++ (o :: (body ++ close :: (rest ++ suffix))) := by simp
    rw [h1, collect_skip_junk d pre _ [] hpre]
    rw [collect_cons_none, ho, if_bool_true]
    rw [collect_some_until_close d (fenceTag o d) body close (rest ++ suffix) [] hbody hclose]
    rw [List.nil_append, ih suffix]
    simp

theorem collect_fenced_eq (d : List Char) {ls : List (List Char)} {bs : List Block}
    (h : Fenced d ls bs) : collectBlocksAux d ls none [] = bs := by
  have hx := collect_fenced d h []
  rw [collect_nil_none] at hx
  simpa using hx

theorem fallbackBlocks_eq {text code_type language : List Char} {bs : List Block}
    (h : Fenced (actualLanguage language) (splitNl text) bs) (hne : bs ≠ []) :
    fallbackBlocks text code_type language = bs := by
  unfold fallbackBlocks
  rw [collect_fenced_eq _ h, ne_nil_isEmpty_false hne, if_bool_false]

theorem fallbackBlocks_no_fences {text code_type language : List Char}
    (h : ∀ l ∈ splitNl text, isFenceLine l = false) :
    fallbackBlocks text code_type language = [⟨actualLanguage language, text⟩] := by
  unfold fallbackBlocks
  rw [collect_none_fence_free _ _ _ h]
  rfl

theorem parse_response_fallback {J : Type} (decode : List Char → Option J)
    (text code_type language : List Char)
    (hjson : ∀ sp, jsonSpan text = some sp → decode sp = none) :
    parse_generated_code_response decode text code_type language
      = Sum.inr (create_fallback_code_structure text code_type language) := by
  unfold parse_generated_code_response
  cases hsp : jsonSpan text with
  | none => rfl
  | some sp =>
    have hd := hjson sp hsp
    simp [hd]

theorem enum_map_mkFile_content (ct : List Char) (bs : List Block) :
    ((bs.enum.map fun p => mkFile ct p.1 p.2).map CodeFile.content)
      = bs.map Block.content := by
  rw [List.map_map]
  have h1 : (CodeFile.content ∘ fun p : Nat × Block => mkFile ct p.1 p.2)
      = fun p : Nat × Block => p.2.content := rfl
  rw [h1]
  have h2 : (fun p : Nat × Block => p.2.content) = (Block.content ∘ Prod.snd) := rfl
  rw [h2, ← List.map_map, List.enum_map_snd]

theorem enum_map_mkFile_language (ct : List Char) (bs : List Block) :
    ((bs.enum.map fun p => mkFile ct p.1 p.2).map CodeFile.language)
      = bs.map Block.language := by
  rw [List.map_map]
  have h1 : (CodeFile.language ∘ fun p : Nat × Block => mkFile ct p.1 p.2)
      = fun p : Nat × Block => p.2.language := rfl
  rw [h1]
  have h2 : (fun p : Nat × Block => p.2.language) = (Block.language ∘ Prod.snd) := rfl
  rw [h2, ← List.map_map, List.enum_map_snd]

theorem enum_map_mkFile_head (ct : List Char) (b0 : Block) (bt : List Block) :
    ((b0 :: bt).enum.map fun p => mkFile ct p.1 p.2).head? = some (mkFile ct 0 b0) := by
  rw [List.enum_cons]
  rfl

theorem bundle_files (content ct lang : List Char) :
    (create_fallback_code_structure content ct lang).files
      = (fallbackBlocks content ct lang).enum.map (fun p => mkFile ct p.1 p.2) := rfl

/-! ### Claim C4 -/

/-- C4: for every code-generation response with at least one well-formed
fenced block for which the strict balanced-JSON parse does not succeed, the
fallback bundle has exactly as many file entries as fenced blocks, in source
order (contents and languages correspond pointwise), and the first file gets
the canonical entry-point filename from the fixed lookup table for its
language/codeType pair — `main.py` for a `python` block with
codeType `backend`. -/
theorem c4_fenced_blocks {J : Type} (decode : List Char → Option J)
    (text code_type language : List Char) (bs : List Block)
    (hjson : ∀ sp, jsonSpan text = some sp → decode sp = none)
    (hf : Fenced (actualLanguage language) (splitNl text) bs) (hne : bs ≠ []) :
    ∃ b, parse_generated_code_response decode text code_type language = Sum.inr b ∧
      b.files.length = bs.length ∧
      b.files.map CodeFile.content = bs.map Block.content ∧
      b.files.map CodeFile.language = bs.map Block.language ∧
      b.files.head? = bs.head?.map (fun blk => mkFile code_type 0 blk) ∧
      (code_type = toL "backend" → (bs.map Block.language).head? = some (toL "python") →
        (b.files.map CodeFile.filename).head? = some (toL "main.py")) := by
  have hfb : fallbackBlocks text code_type language = bs := fallbackBlocks_eq hf hne
  refine ⟨_, parse_response_fallback decode text code_type language hjson,
    ?_, ?_, ?_, ?_, ?_⟩
  · rw [bundle_files, hfb]
    simp [List.enum_length]
  · rw [bundle_files, hfb, enum_map_mkFile_content]
  · rw [bundle_files, hfb, enum_map_mkFile_language]
  · rcases bs with _ | ⟨b0, bt⟩
    · exact absurd rfl hne
    · rw [bundle_files, hfb, enum_map_mkFile_head]
      rfl
  · intro hct hlang
    rcases bs with _ | ⟨b0, bt⟩
    · exact absurd rfl hne
    · simp only [List.map_cons, List.head?_cons, Option.some.injEq] at hlang
      rw [bundle_files, hfb, List.head?_map, enum_map_mkFile_head]
      show some ((mkFile code_type 0 b0).filename) = some (toL "main.py")
      rw [show (mkFile code_type 0 b0).filename
          = determine_filename b0.language code_type 0 from rfl, hct, hlang]
      decide

/-- Witness for C4, at the spec's scenario: one python fenced block with
codeType `backend` gives one file `main.py` containing `print(1)`. -/
theorem c4_witness :
    ∃ b, parse_generated_code_response (fun _ => (none : Option Unit)) (toL "```python\nprint(1)\n```")
          (toL "backend") (toL "python") = Sum.inr b ∧
      b.files.length = [(⟨toL "python", toL "print(1)"⟩ : Block)].length ∧
      b.files.map CodeFile.content
        = [(⟨toL "python", toL "print(1)"⟩ : Block)].map Block.content ∧
      b.files.map CodeFile.language
        = [(⟨toL "python", toL "print(1)"⟩ : Block)].map Block.language ∧
      b.files.head?
        = [(⟨toL "python", toL "print(1)"⟩ : Block)].head?.map
            (fun blk => mkFile (toL "backend") 0 blk) ∧
      (toL "backend" = toL "backend" →
        ([(⟨toL "python", toL "print(1)"⟩ : Block)].map Block.language).head?
            = some (toL "python") →
        (b.files.map CodeFile.filename).head? = some (toL "main.py")) := by
  have hf : Fenced (actualLanguage (toL "python")) (splitNl (toL "```python\nprint(1)\n```"))
      [⟨toL "python", toL "print(1)"⟩] := by
    have hs : splitNl (toL "```python\nprint(1)\n```")
        = [] ++ (toL "```python") :: ([toL "print(1)"] ++ (toL "```") :: []) := by decide
    rw [hs]
    have hblk := Fenced.block (d := actualLanguage (toL "python")) []
      (toL "```python") [toL "print(1)"] (toL "```") [] []
      (by simp) (by decide) (by decide) (by decide) (Fenced.nil [] (by simp))
    have hbv : (⟨fenceTag (toL "```python") (actualLanguage (toL "python")),
        joinNl [toL "print(1)"]⟩ : Block) = ⟨toL "python", toL "print(1)"⟩ := by decide
    rw [hbv] at hblk
    exact hblk
  exact c4_fenced_blocks (fun _ => (none : Option Unit)) (toL "```python\nprint(1)\n```")
    (toL "backend") (toL "python") [⟨toL "python", toL "print(1)"⟩]
    (fun _ _ => rfl) hf (by simp)

/-! ### Claim C5 -/

/-- C5: for every code-generation response text with zero fenced blocks whose
brace span is not valid JSON with the required keys, the fallback bundle is
exactly one file whose content is the full input text. -/
theorem c5_no_fences_single_file {J : Type} (decode : List Char → Option J)
    (text code_type language : List Char)
    (hjson : ∀ sp, jsonSpan text = some sp → decode sp = none)
    (hnf : ∀ l ∈ splitNl text, isFenceLine l = false) :
    ∃ b, parse_generated_code_response decode text code_type language = Sum.inr b ∧
      b.files.length = 1 ∧ b.files.map CodeFile.content = [text] := by
  have hfb : fallbackBlocks text code_type language = [⟨actualLanguage language, text⟩] :=
    fallbackBlocks_no_fences hnf
  refine ⟨_, parse_response_fallback decode text code_type language hjson, ?_, ?_⟩
  · rw [bundle_files, hfb]
    rfl
  · rw [bundle_files, hfb, enum_map_mkFile_content]
    rfl

/-- Witness for C5. -/
theorem c5_witness :
    ∃ b, parse_generated_code_response (fun _ => (none : Option Unit)) (toL "Hello, just prose.")
          (toL "backend") (toL "python") = Sum.inr b ∧
      b.files.length = 1 ∧ b.files.map CodeFile.content = [toL "Hello, just prose."] :=
  c5_no_fences_single_file (fun _ => (none : Option Unit)) (toL "Hello, just prose.")
    (toL "backend") (toL "python") (fun _ _ => rfl) (by decide)

/-! ### Claim C9 -/

/-- C9: a response ending inside an unterminated fenced block still emits
that trailing block as a file when at least one line was accumulated after
the opening fence; an opening fence as the very last line contributes no
block (and hence no file of its own). -/
theorem c9_trailing_unterminated_block {J : Type} (decode : List Char → Option J)
    (text code_type language : List Char) (pls : List (List Char)) (o : List Char)
    (rest : List (List Char)) (bs0 : List Block)
    (hjson : ∀ sp, jsonSpan text = some sp → decode sp = none)
    (hsplit : splitNl text = pls ++ o :: rest)
    (hpre : Fenced (actualLanguage language) pls bs0)
    (ho : isFenceLine o = true)
    (hrest : ∀ l ∈ rest, isFenceLine l = false) :
    collectBlocksAux (actualLanguage language) (splitNl text) none []
        = bs0 ++ (if rest.isEmpty then []
            else [⟨fenceTag o (actualLanguage language), joinNl rest⟩]) ∧
      (rest ≠ [] →
        ∃ b, parse_generated_code_response decode text code_type language = Sum.inr b ∧
          b.files.length = bs0.length + 1 ∧
          (b.files.map CodeFile.content).getLast? = some (joinNl rest)) ∧
      (rest = [] → bs0 ≠ [] →
        ∃ b, parse_generated_code_response decode text code_type language = Sum.inr b ∧
          b.files.length = bs0.length) := by
  have hcollect : collectBlocksAux (actualLanguage language) (splitNl text) none []
      = bs0 ++ (if rest.isEmpty then []
          else [⟨fenceTag o (actualLanguage language), joinNl rest⟩]) := by
    rw [hsplit, collect_fenced _ hpre (o :: rest)]
    rw [collect_cons_none, ho, if_bool_true]
    rw [collect_some_fence_free _ _ rest [] hrest]
    rw [List.nil_append]
  refine ⟨hcollect, ?_, ?_⟩
  · intro hrne
    have hre : rest.isEmpty = false := ne_nil_isEmpty_false hrne
    have hblocks : fallbackBlocks text code_type language
        = bs0 ++ [⟨fenceTag o (actualLanguage language), joinNl rest⟩] := by
      unfold fallbackBlocks
      rw [hcollect, hre, if_bool_false]
      rw [ne_nil_isEmpty_false (by simp), if_bool_false]
    refine ⟨_, parse_response_fallback decode text code_type language hjson, ?_, ?_⟩
    · rw [bundle_files, hblocks]
      simp [List.enum_length]
    · rw [bundle_files, hblocks, enum_map_mkFile_content, List.map_append]
      simp [List.getLast?_concat]
  · intro hre hbne
    have hblocks : fallbackBlocks text code_type language = bs0 := by
      unfold fallbackBlocks
      rw [hcollect, hre]
      simp [ne_nil_isEmpty_false hbne]
    refine ⟨_, parse_response_fallback decode text code_type language hjson, ?_⟩
    rw [bundle_files, hblocks]
    simp [List.enum_length]

/-- Witness for C9: `"intro\n<fence>python\nprint(1)"` ends inside an
unterminated block with one accumulated line, which is emitted. -/
theorem c9_witness :
    collectBlocksAux (actualLanguage (toL "python"))
        (splitNl (toL "intro\n```python\nprint(1)")) none []
        = [] ++ (if [toL "print(1)"].isEmpty then []
            else [⟨fenceTag (toL "```python") (actualLanguage (toL "python")),
              joinNl [toL "print(1)"]⟩]) ∧
      ([toL "print(1)"] ≠ [] →
        ∃ b, parse_generated_code_response (fun _ => (none : Option Unit))
              (toL "intro\n```python\nprint(1)") (toL "backend") (toL "python")
              = Sum.inr b ∧
          b.files.length = ([] : List Block).length + 1 ∧
          (b.files.map CodeFile.content).getLast? = some (joinNl [toL "print(1)"])) ∧
      ([toL "print(1)"] = [] → ([] : List Block) ≠ [] →
        ∃ b, parse_generated_code_response (fun _ => (none : Option Unit))
              (toL "intro\n```python\nprint(1)") (toL "backend") (toL "python")
              = Sum.inr b ∧
          b.files.length = ([] : List Block).length) :=
  c9_trailing_unterminated_block (fun _ => (none : Option Unit)) (toL "intro\n```python\nprint(1)")
    (toL "backend") (toL "python") [toL "intro"] (toL "```python") [toL "print(1)"] []
    (fun _ _ => rfl) (by decide) (Fenced.nil _ (by decide)) (by decide) (by decide)
